import Mathlib

/-!
Shallow embedding of the SODAX marketing MCP server's content caching and
query layer (glossary service, marketing-stats service, brand-bible service),
together with theorems settling the specification's claims about it.

JavaScript strings are modelled as `List Char`; `Date` timestamps as `Nat`
milliseconds; module-level mutable cache variables as explicit state records
threaded through the fetch functions; upstream I/O (the Notion client, the
axios calls) as an explicit oracle argument describing the outcome of the
(at most one) refresh attempt a single call can make; thrown exceptions as
`Except`.
-/

-- ---------------------------------------------------------------------------
-- String model
-- ---------------------------------------------------------------------------

/-- JavaScript strings are modelled as lists of characters. -/
abbrev Str := List Char

/-- Model of `String.prototype.toLowerCase`. -/
def lowerStr (s : Str) : Str := s.map Char.toLower

/-- Model of `String.prototype.includes`: `w` occurs as a contiguous substring
of `s` (the empty string is a substring of everything, as in JavaScript). -/
def strIncludes (s w : Str) : Bool :=
  (List.range (s.length + 1)).any (fun i => w.isPrefixOf (s.drop i))

/-- Model of `String.prototype.trim`: strip leading and trailing whitespace. -/
def trimStr (s : Str) : Str :=
  ((s.dropWhile Char.isWhitespace).reverse.dropWhile Char.isWhitespace).reverse

/-- Worker for `splitWhitespace`; the fuel argument (initialised to the input
length) only makes the recursion structural, it never runs out. -/
def splitWsGo : Nat → List Char → List Char → List Str
  | _, [], acc => [acc.reverse]
  | 0, _ :: _, acc => [acc.reverse]
  | fuel + 1, c :: rest, acc =>
    if c.isWhitespace then
      acc.reverse :: splitWsGo fuel (rest.dropWhile Char.isWhitespace) []
    else
      splitWsGo fuel rest (c :: acc)

/-- Model of `s.split(/\s+/)`: split on maximal whitespace runs; a leading
(resp. trailing) run contributes a leading (resp. trailing) empty token, and
the empty string yields `[""]`, as in JavaScript. -/
def splitWhitespace (s : Str) : List Str := splitWsGo s.length s []

/-- Model of `arr.join(" ")`. -/
def joinSpace : List Str → Str
  | [] => []
  | [w] => w
  | w :: ws => w ++ ' ' :: joinSpace ws

/-- Decimal rendering of a natural number, for the section ids built with
JavaScript `String(n)` and template literals. -/
def natToStr (n : Nat) : Str := Nat.toDigits 10 n

-- ---------------------------------------------------------------------------
-- Glossary service (src/services/glossary.ts): data model
-- ---------------------------------------------------------------------------

inductive GlossaryCategory where
  | systemConcept
  | systemComponent
deriving DecidableEq

structure GlossaryTerm where
  title : Str
  summary : Str
  tags : List Str
  category : GlossaryCategory
  owner : Option Str := none
deriving DecidableEq

structure GlossaryData where
  title : Str
  lastUpdated : Nat
  terms : List GlossaryTerm
deriving DecidableEq

/-- Cache duration in milliseconds (5 minutes), from src/constants.ts. -/
def GLOSSARY_CACHE_DURATION_MS : Nat := 5 * 60 * 1000

/-- The module-level mutable variables `cachedGlossary` and
`lastGlossaryFetchTime` of the glossary service. -/
structure GlossaryCacheState where
  cachedGlossary : Option GlossaryData
  lastGlossaryFetchTime : Option Nat
deriving DecidableEq

/-- Model of `isGlossaryCacheValid`.  The JavaScript test
`Date.now() - t < TTL` on signed numbers holds whenever the difference is
negative; truncated `Nat` subtraction yields `0 < TTL` there, the same
verdict. -/
def isGlossaryCacheValid (now : Nat) (st : GlossaryCacheState) : Bool :=
  match st.cachedGlossary, st.lastGlossaryFetchTime with
  | some _, some t => now - t < GLOSSARY_CACHE_DURATION_MS
  | _, _ => false

/-- Hardcoded fallback terms `FALLBACK_SYSTEM_CONCEPTS`. -/
def FALLBACK_SYSTEM_CONCEPTS : List GlossaryTerm :=
  [{ title := "Modern money".data,
     summary := "Money that exists in programmable, multi-network systems, where its usefulness depends on coordinated execution, timing, and context, not just ownership.".data,
     tags := ["money".data, "programmable".data, "multi-network".data, "execution".data],
     category := .systemConcept }]

/-- Hardcoded fallback terms `FALLBACK_SYSTEM_COMPONENTS`. -/
def FALLBACK_SYSTEM_COMPONENTS : List GlossaryTerm :=
  [{ title := "Money Market".data,
     summary := "A cross-network money market that lets SODAX and builders lend, borrow, and reuse capital across all integrated networks.".data,
     tags := ["money-market".data, "lending".data, "borrowing".data, "cross-network".data, "capital".data, "yield".data, "solver".data, "sdk".data],
     category := .systemComponent },
   { title := "AMM".data,
     summary := "The SODAX AMM is SODAX's internal decentralized exchange on the Sonic network, used to create tradeable markets for SODAX-native assets, primarily paired against bnUSD.".data,
     tags := ["system".data, "amm".data, "liquidity".data, "execution".data, "settlement".data],
     category := .systemComponent },
   { title := "sodaVariants".data,
     summary := "sodaVariants are how SODAX extends assets into networks where they do not exist natively, making them immediately usable through system-level liquidity.".data,
     tags := ["system".data, "assets".data, "liquidity".data, "execution".data, "cross-network".data],
     category := .systemComponent },
   { title := "Liquidity".data,
     summary := "Liquidity is the SODAX system component that enables cross-network actions to complete by treating assets as a unified, globally accessible inventory rather than isolated pools.".data,
     tags := ["system".data, "liquidity".data, "inventory".data, "execution".data, "cross-network".data],
     category := .systemComponent },
   { title := "Solver".data,
     summary := "The Solver is the part of SODAX responsible for deciding, initiating, and coordinating how a cross-network action is carried out, selecting the most reliable execution path across networks.".data,
     tags := ["routing".data, "solver".data, "cross-network".data, "execution".data, "liquidity".data],
     category := .systemComponent },
   { title := "Coordinator".data,
     summary := "The coordinator is a solver component responsible for constructing and monitoring the execution plan for a cross-network action across networks.".data,
     tags := ["system".data, "solver".data, "coordinator".data, "execution".data, "cross-network".data],
     category := .systemComponent }]

/-- Outcome of the (at most one) upstream refresh attempt a `fetchGlossary`
call can make: `none` models `NOTION_TOKEN` unset (no client, so no upstream
request is made); `some (.error ())` models the Notion queries rejecting;
`some (.ok (concepts, components))` the two database queries succeeding. -/
abbrev GlossaryUpstream := Option (Except Unit (List GlossaryTerm × List GlossaryTerm))

/-- The fallback `GlossaryData` value built in `fetchGlossary`'s final block. -/
def fallbackGlossary (now : Nat) : GlossaryData :=
  { title := "SODAX Technical Glossary".data,
    lastUpdated := now,
    terms := FALLBACK_SYSTEM_CONCEPTS ++ FALLBACK_SYSTEM_COMPONENTS }

/-- The non-cache-hit path of `fetchGlossary` (everything after the early
return).  Returns the result, the new cache state, and `true` marking that a
refresh was attempted. -/
def refreshGlossaryPath (env : GlossaryUpstream) (now : Nat)
    (st : GlossaryCacheState) : GlossaryData × GlossaryCacheState × Bool :=
  match env with
  | some (.ok (concepts, components)) =>
    let glossary : GlossaryData :=
      { title := "SODAX Technical Glossary".data,
        lastUpdated := now,
        terms := concepts ++ components }
    (glossary, ⟨some glossary, some now⟩, true)
  | some (.error _) =>
    match st.cachedGlossary with
    | some c => (c, st, true)
    | none =>
      let g := fallbackGlossary now
      (g, ⟨some g, some now⟩, true)
  | none =>
    let g := fallbackGlossary now
    (g, ⟨some g, some now⟩, true)

/-- Model of `fetchGlossary`.  The returned `Bool` is `true` exactly when the
call went past the cache guard and attempted a refresh. -/
def fetchGlossary (env : GlossaryUpstream) (now : Nat) (forceRefresh : Bool)
    (st : GlossaryCacheState) : GlossaryData × GlossaryCacheState × Bool :=
  if !forceRefresh && isGlossaryCacheValid now st then
    match st.cachedGlossary with
    | some g => (g, st, false)
    | none => refreshGlossaryPath env now st
  else
    refreshGlossaryPath env now st

-- ---------------------------------------------------------------------------
-- Glossary service: query helpers
-- ---------------------------------------------------------------------------

/-- The category guard `if (category && term.category !== category) continue`. -/
def categoryOk (category : Option GlossaryCategory) (t : GlossaryTerm) : Bool :=
  match category with
  | none => true
  | some c => t.category == c

/-- Per-term score computed by the loop body of `searchGlossary`:
10 for each query word contained in the lowercased title, 5 for each word
contained in some lowercased tag, 2 for each word contained in the lowercased
summary, plus 20 when the lowercased title equals the full lowercased query. -/
def glossaryTermScore (queryLower : Str) (words : List Str) (t : GlossaryTerm) : Nat :=
  let tl := lowerStr t.title
  let sl := lowerStr t.summary
  let base := words.foldl (fun score w =>
    let score := if strIncludes tl w then score + 10 else score
    let score := if t.tags.any (fun tag => strIncludes (lowerStr tag) w) then score + 5 else score
    if strIncludes sl w then score + 2 else score) 0
  if tl == queryLower then base + 20 else base

/-- Stable insertion into a list sorted by descending score: the new element
goes before the first element whose score does not exceed it. -/
def insertScoredDesc {α : Type} (x : α × Nat) : List (α × Nat) → List (α × Nat)
  | [] => [x]
  | y :: ys => if y.2 ≤ x.2 then x :: y :: ys else y :: insertScoredDesc x ys

/-- Model of `arr.sort((a, b) => b.score - a.score)` on an array of
score-annotated records.  ECMAScript requires `Array.prototype.sort` to be
stable, and the stable descending-by-score permutation is unique; stable
insertion from the right realizes it. -/
def stableSortDesc {α : Type} (l : List (α × Nat)) : List (α × Nat) :=
  l.foldr insertScoredDesc []

/-- Model of `searchGlossary`'s pure core (the code first awaits
`fetchGlossary`; the stateful wrapper is `searchGlossaryOp` below):
score every candidate term, keep the strictly positive ones in snapshot
order, sort by descending score, return the terms. -/
def searchGlossary (g : GlossaryData) (category : Option GlossaryCategory)
    (query : Str) : List GlossaryTerm :=
  let queryLower := lowerStr query
  let words := splitWhitespace queryLower
  let scored := (g.terms.filter (categoryOk category)).filterMap
    (fun t =>
      let s := glossaryTermScore queryLower words t
      if 0 < s then some (t, s) else none)
  (stableSortDesc scored).map Prod.fst

/-- Pure core of `getTerm`: first term whose lowercased title equals, or
contains as a substring, the lowercased query; `none` when there is none. -/
def findGlossaryTerm (g : GlossaryData) (termTitle : Str) : Option GlossaryTerm :=
  let q := lowerStr termTitle
  g.terms.find? (fun t => lowerStr t.title == q || strIncludes (lowerStr t.title) q)

/-- Pure core of `getAllTerms`. -/
def getAllTermsPure (g : GlossaryData) (category : Option GlossaryCategory) :
    List GlossaryTerm :=
  match category with
  | some c => g.terms.filter (fun t => t.category == c)
  | none => g.terms

/-- Pure core of `getTermsByTag`. -/
def getTermsByTagPure (g : GlossaryData) (tag : Str)
    (category : Option GlossaryCategory) : List GlossaryTerm :=
  let q := lowerStr tag
  g.terms.filter (fun term =>
    categoryOk category term && term.tags.any (fun t => strIncludes (lowerStr t) q))

/-- Worker for `replaceAllCI`, fuel-structural scan over the text. -/
def replaceAllCIGo (patLower repl : Str) : Nat → Str → Str
  | _, [] => []
  | 0, text => text
  | fuel + 1, c :: rest =>
    if patLower ≠ [] && patLower.isPrefixOf (lowerStr (c :: rest)) then
      repl ++ replaceAllCIGo patLower repl fuel ((c :: rest).drop patLower.length)
    else
      c :: replaceAllCIGo patLower repl fuel rest

/-- Model of `text.replace(/pat/gi, repl)` for a literal pattern `pat`:
replace every (non-overlapping, leftmost-first) case-insensitive occurrence. -/
def replaceAllCI (pat repl text : Str) : Str :=
  replaceAllCIGo (lowerStr pat) repl text.length text

/-- Model of `simplifyExplanation`: the fixed chain of case-insensitive
global replacements applied to a term summary. -/
def simplifyExplanation (technical : Str) : Str :=
  replaceAllCI "protocol".data "system".data
    (replaceAllCI "interoperability".data "ability to work together".data
      (replaceAllCI "settlement".data "final processing".data
        (replaceAllCI "liquidity".data "available funds".data
          (replaceAllCI "decentralized exchange".data "trading platform".data
            (replaceAllCI "orchestrated".data "managed".data
              (replaceAllCI "execution path".data "route".data
                (replaceAllCI "cross-network".data "across multiple blockchains".data technical)))))))

structure TranslateResult where
  term : Str
  category : GlossaryCategory
  technicalDefinition : Str
  simpleExplanation : Str
  relatedTerms : List Str
deriving DecidableEq

/-- Pure core of `translateTerm`, given the glossary used for the related-term
scan (the code fetches it a second time after `getTerm`). -/
def translateTermPure (g : GlossaryData) (term : GlossaryTerm) : TranslateResult :=
  let relatedTerms := (g.terms.filterMap (fun other =>
    if other.title == term.title then none
    else if term.tags.any (fun tag => other.tags.any (fun tg => tg == tag)) then
      some other.title
    else none)).take 5
  { term := term.title,
    category := term.category,
    technicalDefinition := term.summary,
    simpleExplanation := simplifyExplanation term.summary,
    relatedTerms := relatedTerms }

-- ---------------------------------------------------------------------------
-- Glossary service: stateful operations (each awaits fetchGlossary)
-- ---------------------------------------------------------------------------

/-- Stateful `getTerm`: fetch (possibly refreshing the cache), then look the
term up in the returned snapshot. -/
def getTerm (env : GlossaryUpstream) (now : Nat) (termTitle : Str)
    (st : GlossaryCacheState) : Option GlossaryTerm × GlossaryCacheState :=
  let r := fetchGlossary env now false st
  (findGlossaryTerm r.1 termTitle, r.2.1)

/-- Stateful `searchGlossary`. -/
def searchGlossaryOp (env : GlossaryUpstream) (now : Nat)
    (query : Str) (category : Option GlossaryCategory)
    (st : GlossaryCacheState) : List GlossaryTerm × GlossaryCacheState :=
  let r := fetchGlossary env now false st
  (searchGlossary r.1 category query, r.2.1)

/-- Stateful `getAllTerms`. -/
def getAllTerms (env : GlossaryUpstream) (now : Nat)
    (category : Option GlossaryCategory)
    (st : GlossaryCacheState) : List GlossaryTerm × GlossaryCacheState :=
  let r := fetchGlossary env now false st
  (getAllTermsPure r.1 category, r.2.1)

/-- Stateful `translateTerm`: `getTerm` (first fetch), and on a hit a second
fetch for the related-term scan. -/
def translateTerm (env : GlossaryUpstream) (now : Nat) (technicalTerm : Str)
    (st : GlossaryCacheState) : Option TranslateResult × GlossaryCacheState :=
  let r1 := fetchGlossary env now false st
  match findGlossaryTerm r1.1 technicalTerm with
  | none => (none, r1.2.1)
  | some term =>
    let r2 := fetchGlossary env now false r1.2.1
    (some (translateTermPure r2.1 term), r2.2.1)

/-- Stateful `refreshGlossary`: a forced fetch. -/
def refreshGlossary (env : GlossaryUpstream) (now : Nat)
    (st : GlossaryCacheState) : GlossaryData × GlossaryCacheState :=
  let r := fetchGlossary env now true st
  (r.1, r.2.1)

-- ---------------------------------------------------------------------------
-- Marketing stats service: data model
-- ---------------------------------------------------------------------------

structure NetworkInfo where
  id : Str
  name : Str
deriving DecidableEq

structure PartnerInfo where
  address : Str
deriving DecidableEq

/-- Raw shape of the `/sodax/supply` response body. -/
structure RawTokenSupply where
  totalSupply : Str
  circulatingSupply : Str
  lockedSupply : Str
  daoFund : Option Str := none
  block : Option Str := none
deriving DecidableEq

structure TokenSupply where
  totalSupply : Str
  circulatingSupply : Str
  lockedSupply : Str
  daoFund : Option Str := none
  blockNumber : Option Str := none
deriving DecidableEq

/-- Raw shape of one `/moneymarket/asset/all` array element. -/
structure RawMoneyMarketAsset where
  symbol : Str
  reserveAddress : Str
  totalATokenBalance : Str
  totalVariableDebtTokenBalance : Str
  totalSuppliers : Nat
  totalBorrowers : Nat
deriving DecidableEq

structure MoneyMarketAsset where
  symbol : Str
  reserveAddress : Str
  totalSupplied : Str
  totalBorrowed : Str
  totalSuppliers : Nat
  totalBorrowers : Nat
deriving DecidableEq

structure MarketingStats where
  networks : List NetworkInfo
  networkCount : Nat
  partners : List PartnerInfo
  partnerCount : Nat
  tokenSupply : TokenSupply
  moneyMarketAssets : List MoneyMarketAsset
  recentIntentsCount : Nat
  lastUpdated : Nat
deriving DecidableEq

def STATS_CACHE_DURATION_MS : Nat := 5 * 60 * 1000

/-- The module-level mutable variables `cachedStats` and `lastStatsFetchTime`. -/
structure StatsCacheState where
  cachedStats : Option MarketingStats
  lastStatsFetchTime : Option Nat
deriving DecidableEq

/-- Model of `isStatsCacheValid`. -/
def isStatsCacheValid (now : Nat) (st : StatsCacheState) : Bool :=
  match st.cachedStats, st.lastStatsFetchTime with
  | some _, some t => now - t < STATS_CACHE_DURATION_MS
  | _, _ => false

/-- The hardcoded `CHAIN_NAMES` map. -/
def CHAIN_NAMES : List (Str × Str) :=
  [("sonic".data, "Sonic".data),
   ("solana".data, "Solana".data),
   ("0xa86a.avax".data, "Avalanche".data),
   ("0xa4b1.arbitrum".data, "Arbitrum".data),
   ("0x2105.base".data, "Base".data),
   ("0xa.optimism".data, "Optimism".data),
   ("0x38.bsc".data, "BNB Chain".data),
   ("0x89.polygon".data, "Polygon".data),
   ("hyper".data, "Hyperliquid".data),
   ("lightlink".data, "LightLink".data),
   ("injective-1".data, "Injective".data),
   ("stellar".data, "Stellar".data),
   ("sui".data, "Sui".data),
   ("0x1.icon".data, "ICON".data),
   ("ethereum".data, "Ethereum".data)]

/-- Model of `getChainName`: `CHAIN_NAMES[chainId] || chainId`. -/
def getChainName (chainId : Str) : Str :=
  (CHAIN_NAMES.lookup chainId).getD chainId

/-- Outcomes of the five independent endpoint calls of one stats refresh;
`none` in a field models that endpoint's axios call rejecting (caught inside
its own fetch helper). -/
structure StatsResponses where
  chains : Option (List Str)
  partners : Option (List Str)
  supply : Option RawTokenSupply
  moneyMarketAssets : Option (List RawMoneyMarketAsset)
  orderbookTotal : Option Nat
deriving DecidableEq

/-- Outcome of one stats refresh attempt: `.ok` carries the five per-endpoint
outcomes (each helper catches its own failure, so `Promise.all` resolves);
`.error` models the outer `try` failing as a whole, reaching the outer
`catch` of `fetchMarketingStats`. -/
abbrev StatsUpstream := Except Unit StatsResponses

/-- Model of `fetchNetworks` given its endpoint outcome. -/
def fetchNetworks (r : Option (List Str)) : List NetworkInfo :=
  match r with
  | some ids => ids.map (fun id => ⟨id, getChainName id⟩)
  | none => []

/-- Model of `fetchPartners` given its endpoint outcome. -/
def fetchPartners (r : Option (List Str)) : List PartnerInfo :=
  match r with
  | some addrs => addrs.map (fun address => ⟨address⟩)
  | none => []

/-- Model of `fetchTokenSupply` given its endpoint outcome. -/
def fetchTokenSupply (r : Option RawTokenSupply) : TokenSupply :=
  match r with
  | some raw =>
    { totalSupply := raw.totalSupply,
      circulatingSupply := raw.circulatingSupply,
      lockedSupply := raw.lockedSupply,
      daoFund := raw.daoFund,
      blockNumber := raw.block }
  | none => { totalSupply := "0".data, circulatingSupply := "0".data, lockedSupply := "0".data }

/-- Model of `fetchMoneyMarketAssets` given its endpoint outcome. -/
def fetchMoneyMarketAssets (r : Option (List RawMoneyMarketAsset)) : List MoneyMarketAsset :=
  match r with
  | some assets => assets.map (fun a =>
      { symbol := a.symbol,
        reserveAddress := a.reserveAddress,
        totalSupplied := a.totalATokenBalance,
        totalBorrowed := a.totalVariableDebtTokenBalance,
        totalSuppliers := a.totalSuppliers,
        totalBorrowers := a.totalBorrowers })
  | none => []

/-- Model of `fetchRecentIntentsCount`: `response.data.total || 0` on success,
0 when the call failed. -/
def fetchRecentIntentsCount (r : Option Nat) : Nat :=
  match r with
  | some total => total
  | none => 0

/-- The literal empty-stats object returned by the outer catch when no cache
exists. -/
def emptyMarketingStats (now : Nat) : MarketingStats :=
  { networks := [], networkCount := 0, partners := [], partnerCount := 0,
    tokenSupply := { totalSupply := "0".data, circulatingSupply := "0".data, lockedSupply := "0".data },
    moneyMarketAssets := [], recentIntentsCount := 0, lastUpdated := now }

/-- The non-cache-hit path of `fetchMarketingStats`.  Note that the
`.error`-with-no-cache branch returns the empty stats object WITHOUT storing
it in the cache (unlike the glossary and brand-bible fallbacks). -/
def refreshStatsPath (env : StatsUpstream) (now : Nat)
    (st : StatsCacheState) : MarketingStats × StatsCacheState × Bool :=
  match env with
  | .ok r =>
    let networks := fetchNetworks r.chains
    let partners := fetchPartners r.partners
    let stats : MarketingStats :=
      { networks := networks,
        networkCount := networks.length,
        partners := partners,
        partnerCount := partners.length,
        tokenSupply := fetchTokenSupply r.supply,
        moneyMarketAssets := fetchMoneyMarketAssets r.moneyMarketAssets,
        recentIntentsCount := fetchRecentIntentsCount r.orderbookTotal,
        lastUpdated := now }
    (stats, ⟨some stats, some now⟩, true)
  | .error _ =>
    match st.cachedStats with
    | some c => (c, st, true)
    | none => (emptyMarketingStats now, st, true)

/-- Model of `fetchMarketingStats`.  The returned `Bool` is `true` exactly
when the call went past the cache guard and attempted a refresh. -/
def fetchMarketingStats (env : StatsUpstream) (now : Nat) (forceRefresh : Bool)
    (st : StatsCacheState) : MarketingStats × StatsCacheState × Bool :=
  if !forceRefresh && isStatsCacheValid now st then
    match st.cachedStats with
    | some s => (s, st, false)
    | none => refreshStatsPath env now st
  else
    refreshStatsPath env now st

-- ---------------------------------------------------------------------------
-- Brand Bible service: data model and block parser
-- ---------------------------------------------------------------------------

structure BrandSubsection where
  id : Str
  parentId : Str
  title : Str
  content : Str
deriving DecidableEq

structure BrandSection where
  id : Str
  title : Str
  content : Str
  subsections : List BrandSubsection
deriving DecidableEq

structure BrandBible where
  title : Str
  lastUpdated : Nat
  sections : List BrandSection
deriving DecidableEq

def CACHE_DURATION_MS : Nat := 5 * 60 * 1000

/-- Notion block objects, reduced to their type tag and extracted plain text
(`richTextToPlain` of the rich-text array). -/
inductive NotionBlock where
  | heading1 (text : Str)
  | heading2 (text : Str)
  | heading3 (text : Str)
  | paragraph (text : Str)
  | bulletedListItem (text : Str)
  | numberedListItem (text : Str)
  | toggle (text : Str)
  | quoteBlock (text : Str)
  | callout (text : Str)
  | codeBlock (text : Str)
  | toDo (checked : Bool) (text : Str)
  | divider
  | unsupported
deriving DecidableEq

/-- Model of `getBlockText`. -/
def getBlockText : NotionBlock → Str
  | .heading1 rt => rt
  | .heading2 rt => rt
  | .heading3 rt => rt
  | .paragraph rt => rt
  | .bulletedListItem rt => "• ".data ++ rt
  | .numberedListItem rt => rt
  | .toggle rt => rt
  | .quoteBlock rt => rt
  | .callout rt => rt
  | .codeBlock rt => rt
  | .toDo checked rt => (if checked then "☑ ".data else "☐ ".data) ++ rt
  | .divider => "---".data
  | .unsupported => []

/-- Parser state of `parseBlocksIntoBrandBible`.  In the JavaScript source the
current section (resp. subsection) is pushed into the output array at creation
and mutated in place afterwards; here it is kept out of `done` (resp. out of
the section's `subsections`) while open and appended when closed, which yields
the same final lists. -/
structure BrandParseState where
  done : List BrandSection
  currentSection : Option BrandSection
  currentSubsection : Option BrandSubsection
  sectionIndex : Nat
  subsectionIndex : Nat
deriving DecidableEq

def initBrandParseState : BrandParseState := ⟨[], none, none, 0, 0⟩

/-- Move the open subsection (if any) into the open section. -/
def closeSubsection (st : BrandParseState) : BrandParseState :=
  match st.currentSection, st.currentSubsection with
  | some sec, some sub =>
    { st with currentSection := some { sec with subsections := sec.subsections ++ [sub] },
              currentSubsection := none }
  | _, _ => { st with currentSubsection := none }

/-- Move the open section (if any), with its open subsection, into `done`. -/
def closeSection (st : BrandParseState) : BrandParseState :=
  let st := closeSubsection st
  match st.currentSection with
  | some sec => { st with done := st.done ++ [sec], currentSection := none }
  | none => st

/-- Model of `content += (content ? "\n\n" : "") + text`. -/
def appendContent (existing text : Str) : Str :=
  if existing = [] then text else existing ++ "\n\n".data ++ text

/-- The final `else` branch of the parser loop: append text to the open
subsection's body, else the open section's body, else drop it. -/
def brandContentStep (st : BrandParseState) (text : Str) : BrandParseState :=
  match st.currentSubsection with
  | some sub =>
    { st with currentSubsection := some { sub with content := appendContent sub.content text } }
  | none =>
    match st.currentSection with
    | some sec =>
      { st with currentSection := some { sec with content := appendContent sec.content text } }
    | none => st

/-- One iteration of the `for (const block of blocks)` loop of
`parseBlocksIntoBrandBible`. -/
def brandParseStep (st : BrandParseState) (block : NotionBlock) : BrandParseState :=
  let text := trimStr (getBlockText block)
  if text = [] then st
  else
    match block with
    | .heading1 _ =>
      let st' := closeSection st
      let idx := st'.sectionIndex + 1
      { st' with currentSection := some ⟨natToStr idx, text, [], []⟩,
                 currentSubsection := none,
                 sectionIndex := idx,
                 subsectionIndex := 0 }
    | .heading2 _ =>
      match st.currentSection with
      | some _ =>
        let st' := closeSubsection st
        match st'.currentSection with
        | some sec =>
          let j := st'.subsectionIndex + 1
          { st' with currentSubsection :=
                       some ⟨sec.id ++ '.' :: natToStr j, sec.id, text, []⟩,
                     subsectionIndex := j }
        | none => st'
      | none => brandContentStep st text
    | .heading3 _ =>
      match st.currentSubsection with
      | some sub =>
        let sub' := { sub with content := appendContent sub.content ("**".data ++ text ++ "**".data) }
        { st with currentSubsection := some sub' }
      | none => brandContentStep st text
    | _ => brandContentStep st text

/-- Model of `parseBlocksIntoBrandBible`. -/
def parseBlocksIntoBrandBible (now : Nat) (blocks : List NotionBlock) : BrandBible :=
  let final := closeSection (blocks.foldl brandParseStep initBrandParseState)
  ⟨"SODAX Brand Bible".data, now, final.done⟩

/-- The `BRAND_SECTIONS` constant (in JavaScript enumeration order: integer-like
keys ascending). -/
def BRAND_SECTIONS : List (Str × Str) :=
  [("1".data, "Introduction & Brand Overview".data),
   ("2".data, "Brand Voice & Tone".data),
   ("3".data, "Visual Identity".data),
   ("4".data, "Messaging Framework".data),
   ("5".data, "Content Guidelines".data),
   ("6".data, "Brand Applications".data)]

/-- Model of `createDefaultBrandBible`. -/
def createDefaultBrandBible (now : Nat) : BrandBible :=
  { title := "SODAX Brand Bible".data,
    lastUpdated := now,
    sections := BRAND_SECTIONS.map (fun p =>
      { id := p.1,
        title := p.2,
        content := "Content for ".data ++ p.2 ++ ". Please set NOTION_TOKEN environment variable to load from Notion.".data,
        subsections := [] }) }

-- ---------------------------------------------------------------------------
-- Brand Bible service: cache and fetch
-- ---------------------------------------------------------------------------

/-- The module-level mutable variables `cachedBrandBible` and `lastFetchTime`. -/
structure BrandCacheState where
  cachedBrandBible : Option BrandBible
  lastFetchTime : Option Nat
deriving DecidableEq

/-- Model of `isCacheValid`. -/
def isCacheValid (now : Nat) (st : BrandCacheState) : Bool :=
  match st.cachedBrandBible, st.lastFetchTime with
  | some _, some t => now - t < CACHE_DURATION_MS
  | _, _ => false

/-- Outcome of the (at most one) upstream refresh attempt of one
`fetchBrandBible` call: `none` models `NOTION_TOKEN` unset; `some (.error ())`
the block listing rejecting; `some (.ok blocks)` the full paginated listing. -/
abbrev BrandUpstream := Option (Except Unit (List NotionBlock))

/-- The non-cache-hit path of `fetchBrandBible`. -/
def refreshBrandPath (env : BrandUpstream) (now : Nat)
    (st : BrandCacheState) : BrandBible × BrandCacheState × Bool :=
  let fallback := fun (_ : Unit) =>
    let fb := createDefaultBrandBible now
    (fb, (⟨some fb, some now⟩ : BrandCacheState), true)
  match env with
  | some (.ok blocks) =>
    let brandBible := parseBlocksIntoBrandBible now blocks
    if 0 < brandBible.sections.length then
      (brandBible, ⟨some brandBible, some now⟩, true)
    else
      fallback ()
  | some (.error _) =>
    match st.cachedBrandBible with
    | some c => (c, st, true)
    | none => fallback ()
  | none => fallback ()

/-- Model of `fetchBrandBible`.  The returned `Bool` is `true` exactly when
the call went past the cache guard and attempted a refresh. -/
def fetchBrandBible (env : BrandUpstream) (now : Nat) (forceRefresh : Bool)
    (st : BrandCacheState) : BrandBible × BrandCacheState × Bool :=
  if !forceRefresh && isCacheValid now st then
    match st.cachedBrandBible with
    | some bb => (bb, st, false)
    | none => refreshBrandPath env now st
  else
    refreshBrandPath env now st

-- ---------------------------------------------------------------------------
-- Brand Bible service: free-text search
-- ---------------------------------------------------------------------------

/-- ECMAScript regular-expression metacharacters. -/
def REGEX_META : List Char :=
  ['\\', '^', '$', '.', '|', '?', '*', '+', '(', ')', '[', ']', '\x7b', '\x7d']

/-- How the model accounts for one `new RegExp(word, "gi")` construction that
does not fall in the literal fragment: `syntaxError` marks a pattern the
ECMAScript constructor genuinely rejects (a thrown SyntaxError), `unmodelled`
marks a pattern that contains metacharacters but may well compile with
non-literal matching semantics (e.g. "(primary)" or "." do compile), about
which the model asserts nothing. -/
inductive RegexFailure where
  | syntaxError
  | unmodelled
deriving DecidableEq

/-- Modelled from the spec: the ECMAScript `RegExp` constructor invoked by
`calculateRelevanceScore` on each raw query word is library code outside this
repository.  A pattern free of metacharacters compiles and (with the `g` and
`i` flags) matches exactly its literal case-insensitive occurrences;
`jsRegexLiteral` recognizes that fragment. -/
def jsRegexLiteral (w : Str) : Bool :=
  w.all (fun c => !(REGEX_META.contains c))

/-- Modelled from the spec: classification of a non-literal pattern.  Only the
lone unmatched group opener `"("` is modelled as genuinely failing to compile
(the ECMAScript constructor throws `SyntaxError: unterminated group` on it);
every other metacharacter-containing pattern is left outside the modelled
fragment rather than asserted to throw. -/
def regexFailureFor (w : Str) : RegexFailure :=
  if w = "(".data then .syntaxError else .unmodelled

/-- Worker for `countOccs`, fuel-structural scan. -/
def countOccsGo (pat : Str) : Nat → Str → Nat
  | _, [] => 0
  | 0, _ :: _ => 0
  | fuel + 1, c :: rest =>
    if pat.isPrefixOf (c :: rest) then
      1 + countOccsGo pat fuel ((c :: rest).drop pat.length)
    else
      countOccsGo pat fuel rest

/-- Number of matches of the literal pattern `pat` in `text` under a global
regex scan: non-overlapping, leftmost-first.  For the empty pattern a global
regex yields `text.length + 1` empty matches, as in JavaScript. -/
def countOccs (pat text : Str) : Nat :=
  if pat = [] then text.length + 1 else countOccsGo pat text.length text

/-- Model of `calculateRelevanceScore`'s word loop, with the accumulated
score; `.error .syntaxError` models the `RegExp` constructor throwing, and
`.error .unmodelled` marks a word whose regex semantics the model does not
cover (no conclusion about the program is drawn from such a result). -/
def calcScoreGo (textLower phrase : Str) : List Str → Nat → Except RegexFailure Nat
  | [], score => .ok score
  | w :: ws, score =>
    if jsRegexLiteral w then
      let m := countOccs (lowerStr w) textLower
      if 0 < m then
        let score := score + m
        let score := if strIncludes textLower phrase then score + 5 else score
        calcScoreGo textLower phrase ws score
      else
        calcScoreGo textLower phrase ws score
    else
      .error (regexFailureFor w)

/-- Model of `calculateRelevanceScore`: for each query word, build
`new RegExp(word, "gi")` (which throws on the genuinely invalid pattern "(")
and add the number of its matches in the lowercased text; whenever a word
matched, add a further 5 if the full query phrase (`queryWords.join(" ")`) is
a substring of the lowercased text. -/
def calculateRelevanceScore (text : Str) (queryWords : List Str) :
    Except RegexFailure Nat :=
  calcScoreGo (lowerStr text) (joinSpace queryWords) queryWords 0

/-- First index of `pat` in `text`, or `none`: model of `indexOf` for a
substring. -/
def indexOfStr (text pat : Str) : Option Nat :=
  (List.range (text.length + 1)).find? (fun i => pat.isPrefixOf (text.drop i))

/-- Model of `extractMatchContext` (default `contextLength` 150): a text
snippet around the first occurrence of the first query word found in the
content, with ellipsis markers on truncated ends. -/
def extractMatchContext (content : Str) (queryWords : List Str) : Str :=
  let contextLength := 150
  let contentLower := lowerStr content
  let rec go : List Str → Str
    | [] =>
      if contextLength < content.length then
        content.take contextLength ++ "...".data
      else content
    | w :: ws =>
      match indexOfStr contentLower w with
      | some index =>
        let start := index - contextLength / 2
        let stop := min content.length (index + w.length + contextLength / 2)
        let context := (content.take stop).drop start
        let context := if 0 < start then "...".data ++ context else context
        if stop < content.length then context ++ "...".data else context
      | none => go ws
  go queryWords

structure SearchResult where
  sectionId : Str
  sectionTitle : Str
  subsectionId : Option Str := none
  subsectionTitle : Option Str := none
  matchedContent : Str
  relevanceScore : Nat
deriving DecidableEq

/-- Score the subsections of one section, collecting the positive ones. -/
def collectSubsectionResults (queryWords : List Str) (sec : BrandSection) :
    List BrandSubsection → Except RegexFailure (List SearchResult)
  | [] => .ok []
  | sub :: rest => do
    let score ← calculateRelevanceScore (sub.title ++ ' ' :: sub.content) queryWords
    let tail ← collectSubsectionResults queryWords sec rest
    if 0 < score then
      .ok (⟨sec.id, sec.title, some sub.id, some sub.title,
            extractMatchContext sub.content queryWords, score⟩ :: tail)
    else
      .ok tail

/-- Score every section and subsection, collecting the positive ones in
document order. -/
def collectBrandResults (queryWords : List Str) :
    List BrandSection → Except RegexFailure (List SearchResult)
  | [] => .ok []
  | sec :: rest => do
    let score ← calculateRelevanceScore (sec.title ++ ' ' :: sec.content) queryWords
    let subResults ← collectSubsectionResults queryWords sec sec.subsections
    let tail ← collectBrandResults queryWords rest
    let head : List SearchResult :=
      if 0 < score then
        [⟨sec.id, sec.title, none, none, extractMatchContext sec.content queryWords, score⟩]
      else []
    .ok (head ++ subResults ++ tail)

/-- Model of `searchBrandBible`'s pure core: score sections and subsections,
sort by descending relevance (stable), truncate to `maxResults`;
`.error .syntaxError` models the RegExp SyntaxError propagating out of the
service uncaught. -/
def searchBrandBible (bb : BrandBible) (query : Str) (maxResults : Nat := 5) :
    Except RegexFailure (List SearchResult) := do
  let queryWords := splitWhitespace (lowerStr query)
  let results ← collectBrandResults queryWords bb.sections
  let sorted := (stableSortDesc (results.map (fun r => (r, r.relevanceScore)))).map Prod.fst
  .ok (sorted.take maxResults)

-- ---------------------------------------------------------------------------
-- Helper lemmas about the fetch dispatchers
-- ---------------------------------------------------------------------------

/-- Every execution of the glossary refresh path reports one attempt. -/
theorem refreshGlossaryPath_attempted (env : GlossaryUpstream) (now : Nat)
    (st : GlossaryCacheState) : (refreshGlossaryPath env now st).2.2 = true := by
  rcases env with _ | e
  · rfl
  · rcases e with e | ⟨c1, c2⟩
    · cases h : st.cachedGlossary <;> simp [refreshGlossaryPath, h]
    · rfl

/-- Every execution of the stats refresh path reports one attempt. -/
theorem refreshStatsPath_attempted (env : StatsUpstream) (now : Nat)
    (st : StatsCacheState) : (refreshStatsPath env now st).2.2 = true := by
  rcases env with e | r
  · cases h : st.cachedStats <;> simp [refreshStatsPath, h]
  · rfl

/-- Every execution of the brand refresh path reports one attempt. -/
theorem refreshBrandPath_attempted (env : BrandUpstream) (now : Nat)
    (st : BrandCacheState) : (refreshBrandPath env now st).2.2 = true := by
  rcases env with _ | e
  · rfl
  · rcases e with e | blocks
    · cases h : st.cachedBrandBible <;> simp [refreshBrandPath, h]
    · simp only [refreshBrandPath]
      split <;> rfl

/-- C1: for each of the three domain caches (glossary, stats, brand bible),
a non-forced query issued while a snapshot exists and `now - fetchedAt < TTL`
returns the cached snapshot unchanged without attempting any fetch, while a
query issued with no snapshot, or with `now - fetchedAt ≥ TTL`, runs exactly
one refresh attempt; the comparison is strict, so at exactly
`now = fetchedAt + TTL` a fetch is attempted.  All three TTL constants equal
five minutes in milliseconds. -/
theorem cache_ttl_strict (now : Nat) :
    (∀ (env : GlossaryUpstream) (st : GlossaryCacheState) (g : GlossaryData) (t : Nat),
        st.cachedGlossary = some g → st.lastGlossaryFetchTime = some t →
        now - t < GLOSSARY_CACHE_DURATION_MS →
        fetchGlossary env now false st = (g, st, false)) ∧
    (∀ (env : GlossaryUpstream) (st : GlossaryCacheState),
        (st.cachedGlossary = none ∨
          ∀ t, st.lastGlossaryFetchTime = some t → GLOSSARY_CACHE_DURATION_MS ≤ now - t) →
        (fetchGlossary env now false st).2.2 = true) ∧
    (∀ (env : StatsUpstream) (st : StatsCacheState) (s : MarketingStats) (t : Nat),
        st.cachedStats = some s → st.lastStatsFetchTime = some t →
        now - t < STATS_CACHE_DURATION_MS →
        fetchMarketingStats env now false st = (s, st, false)) ∧
    (∀ (env : StatsUpstream) (st : StatsCacheState),
        (st.cachedStats = none ∨
          ∀ t, st.lastStatsFetchTime = some t → STATS_CACHE_DURATION_MS ≤ now - t) →
        (fetchMarketingStats env now false st).2.2 = true) ∧
    (∀ (env : BrandUpstream) (st : BrandCacheState) (bb : BrandBible) (t : Nat),
        st.cachedBrandBible = some bb → st.lastFetchTime = some t →
        now - t < CACHE_DURATION_MS →
        fetchBrandBible env now false st = (bb, st, false)) ∧
    (∀ (env : BrandUpstream) (st : BrandCacheState),
        (st.cachedBrandBible = none ∨
          ∀ t, st.lastFetchTime = some t → CACHE_DURATION_MS ≤ now - t) →
        (fetchBrandBible env now false st).2.2 = true) ∧
    GLOSSARY_CACHE_DURATION_MS = 5 * 60 * 1000 ∧
    STATS_CACHE_DURATION_MS = 5 * 60 * 1000 ∧
    CACHE_DURATION_MS = 5 * 60 * 1000 := by
  refine ⟨?_, ?_, ?_, ?_, ?_, ?_, rfl, rfl, rfl⟩
  · intro env st g t h1 h2 h3
    have hv : isGlossaryCacheValid now st = true := by
      simp [isGlossaryCacheValid, h1, h2, h3]
    simp [fetchGlossary, hv, h1]
  · intro env st h
    have hv : isGlossaryCacheValid now st = false := by
      rcases h with h | h
      · simp [isGlossaryCacheValid, h]
      · unfold isGlossaryCacheValid
        cases hc : st.cachedGlossary <;> cases ht : st.lastGlossaryFetchTime <;>
          simp_all
    simp [fetchGlossary, hv, refreshGlossaryPath_attempted]
  · intro env st s t h1 h2 h3
    have hv : isStatsCacheValid now st = true := by
      simp [isStatsCacheValid, h1, h2, h3]
    simp [fetchMarketingStats, hv, h1]
  · intro env st h
    have hv : isStatsCacheValid now st = false := by
      rcases h with h | h
      · simp [isStatsCacheValid, h]
      · unfold isStatsCacheValid
        cases hc : st.cachedStats <;> cases ht : st.lastStatsFetchTime <;>
          simp_all
    simp [fetchMarketingStats, hv, refreshStatsPath_attempted]
  · intro env st bb t h1 h2 h3
    have hv : isCacheValid now st = true := by
      simp [isCacheValid, h1, h2, h3]
    simp [fetchBrandBible, hv, h1]
  · intro env st h
    have hv : isCacheValid now st = false := by
      rcases h with h | h
      · simp [isCacheValid, h]
      · unfold isCacheValid
        cases hc : st.cachedBrandBible <;> cases ht : st.lastFetchTime <;>
          simp_all
    simp [fetchBrandBible, hv, refreshBrandPath_attempted]

/-- Witness for C1: a query one millisecond after a fetch is served from the
cache with no attempt; a query at exactly `fetchedAt + 300000` attempts a
refresh, in all three domains. -/
theorem cache_ttl_strict_witness :
    fetchGlossary none 1 false ⟨some (fallbackGlossary 0), some 0⟩ =
      (fallbackGlossary 0, ⟨some (fallbackGlossary 0), some 0⟩, false) ∧
    (fetchGlossary none 300000 false ⟨some (fallbackGlossary 0), some 0⟩).2.2 = true ∧
    fetchMarketingStats (.error ()) 1 false ⟨some (emptyMarketingStats 0), some 0⟩ =
      (emptyMarketingStats 0, ⟨some (emptyMarketingStats 0), some 0⟩, false) ∧
    (fetchMarketingStats (.error ()) 300000 false ⟨some (emptyMarketingStats 0), some 0⟩).2.2 = true ∧
    fetchBrandBible none 1 false ⟨some (createDefaultBrandBible 0), some 0⟩ =
      (createDefaultBrandBible 0, ⟨some (createDefaultBrandBible 0), some 0⟩, false) ∧
    (fetchBrandBible none 300000 false ⟨some (createDefaultBrandBible 0), some 0⟩).2.2 = true :=
  ⟨(cache_ttl_strict 1).1 none _ _ 0 rfl rfl (by decide),
   (cache_ttl_strict 300000).2.1 none _
     (Or.inr (fun t ht => by injection ht with h; subst h; decide)),
   (cache_ttl_strict 1).2.2.1 (.error ()) _ _ 0 rfl rfl (by decide),
   (cache_ttl_strict 300000).2.2.2.1 (.error ()) _
     (Or.inr (fun t ht => by injection ht with h; subst h; decide)),
   (cache_ttl_strict 1).2.2.2.2.1 none _ _ 0 rfl rfl (by decide),
   (cache_ttl_strict 300000).2.2.2.2.2.1 none _
     (Or.inr (fun t ht => by injection ht with h; subst h; decide))⟩

/-- C2: in each domain, when a prior snapshot exists and the upstream fetch of
a refresh attempt fails, the call returns the previously stored snapshot and
leaves the cache state (snapshot and timestamp) unchanged, for any clock value
and whether or not the refresh was forced.  The operations are total Lean
functions returning plain values, so no exception reaches the caller. -/
theorem stale_while_error (now : Nat) (force : Bool) :
    (∀ (st : GlossaryCacheState) (c : GlossaryData),
        st.cachedGlossary = some c →
        (fetchGlossary (some (.error ())) now force st).1 = c ∧
        (fetchGlossary (some (.error ())) now force st).2.1 = st) ∧
    (∀ (st : StatsCacheState) (c : MarketingStats),
        st.cachedStats = some c →
        (fetchMarketingStats (.error ()) now force st).1 = c ∧
        (fetchMarketingStats (.error ()) now force st).2.1 = st) ∧
    (∀ (st : BrandCacheState) (c : BrandBible),
        st.cachedBrandBible = some c →
        (fetchBrandBible (some (.error ())) now force st).1 = c ∧
        (fetchBrandBible (some (.error ())) now force st).2.1 = st) := by
  refine ⟨?_, ?_, ?_⟩
  · intro st c h
    unfold fetchGlossary
    split
    · rw [h]
      exact ⟨rfl, rfl⟩
    · simp [refreshGlossaryPath, h]
  · intro st c h
    unfold fetchMarketingStats
    split
    · rw [h]
      exact ⟨rfl, rfl⟩
    · simp [refreshStatsPath, h]
  · intro st c h
    unfold fetchBrandBible
    split
    · rw [h]
      exact ⟨rfl, rfl⟩
    · simp [refreshBrandPath, h]

/-- Witness for C2: a failed refresh of an expired snapshot returns exactly
the old snapshot and cache state in each domain. -/
theorem stale_while_error_witness :
    (fetchGlossary (some (.error ())) 999999 false ⟨some (fallbackGlossary 0), some 0⟩).1 =
      fallbackGlossary 0 ∧
    (fetchMarketingStats (.error ()) 999999 false ⟨some (emptyMarketingStats 0), some 0⟩).2.1 =
      ⟨some (emptyMarketingStats 0), some 0⟩ ∧
    (fetchBrandBible (some (.error ())) 999999 false ⟨some (createDefaultBrandBible 0), some 0⟩).1 =
      createDefaultBrandBible 0 :=
  ⟨((stale_while_error 999999 false).1 _ _ rfl).1,
   ((stale_while_error 999999 false).2.1 _ _ rfl).2,
   ((stale_while_error 999999 false).2.2 _ _ rfl).1⟩

/-- C3 counterexample: in the stats domain the claim fails.  With no prior
snapshot, a globally failed stats refresh returns the hardcoded empty stats
object but does NOT store it: the cache stays empty, and a subsequent query
one millisecond later attempts the upstream again instead of being served
from a cached default. -/
theorem stats_fallback_not_cached :
    fetchMarketingStats (.error ()) 0 false ⟨none, none⟩ =
      (emptyMarketingStats 0, ⟨none, none⟩, true) ∧
    (fetchMarketingStats (.error ()) 1 false
      (fetchMarketingStats (.error ()) 0 false ⟨none, none⟩).2.1).2.2 = true :=
  ⟨rfl, rfl⟩

/-- C3 (amended): when a fetch fails or no upstream client is configured and
no prior snapshot exists, the glossary and brand-bible services return their
hardcoded default snapshot AND store it with a fresh timestamp, so a
subsequent query within the TTL window is served from the cache without a new
fetch attempt; the stats service, however, returns its hardcoded empty stats
object WITHOUT caching it, leaving the cache state unchanged. -/
theorem fallback_on_first_failure (now later : Nat) :
    (∀ (env : GlossaryUpstream) (force : Bool) (st : GlossaryCacheState),
        (env = none ∨ env = some (.error ())) →
        st.cachedGlossary = none →
        fetchGlossary env now force st =
          (fallbackGlossary now, ⟨some (fallbackGlossary now), some now⟩, true) ∧
        (later - now < GLOSSARY_CACHE_DURATION_MS →
          ∀ env2 : GlossaryUpstream,
            fetchGlossary env2 later false ⟨some (fallbackGlossary now), some now⟩ =
              (fallbackGlossary now, ⟨some (fallbackGlossary now), some now⟩, false))) ∧
    (∀ (env : BrandUpstream) (force : Bool) (st : BrandCacheState),
        (env = none ∨ env = some (.error ())) →
        st.cachedBrandBible = none →
        fetchBrandBible env now force st =
          (createDefaultBrandBible now, ⟨some (createDefaultBrandBible now), some now⟩, true) ∧
        (later - now < CACHE_DURATION_MS →
          ∀ env2 : BrandUpstream,
            fetchBrandBible env2 later false ⟨some (createDefaultBrandBible now), some now⟩ =
              (createDefaultBrandBible now, ⟨some (createDefaultBrandBible now), some now⟩, false))) ∧
    (∀ (force : Bool) (st : StatsCacheState),
        st.cachedStats = none →
        fetchMarketingStats (.error ()) now force st =
          (emptyMarketingStats now, st, true)) := by
  refine ⟨?_, ?_, ?_⟩
  · intro env force st henv hc
    constructor
    · have hv : isGlossaryCacheValid now st = false := by
        simp [isGlossaryCacheValid, hc]
      have hpath : refreshGlossaryPath env now st =
          (fallbackGlossary now, ⟨some (fallbackGlossary now), some now⟩, true) := by
        rcases henv with h | h <;> subst h <;> simp [refreshGlossaryPath, hc]
      cases force <;> simp [fetchGlossary, hv, hpath]
    · intro hlt env2
      exact (cache_ttl_strict later).1 env2 _ _ now rfl rfl hlt
  · intro env force st henv hc
    constructor
    · have hv : isCacheValid now st = false := by
        simp [isCacheValid, hc]
      have hpath : refreshBrandPath env now st =
          (createDefaultBrandBible now, ⟨some (createDefaultBrandBible now), some now⟩, true) := by
        rcases henv with h | h <;> subst h <;> simp [refreshBrandPath, hc]
      cases force <;> simp [fetchBrandBible, hv, hpath]
    · intro hlt env2
      exact (cache_ttl_strict later).2.2.2.2.1 env2 _ _ now rfl rfl hlt
  · intro force st hc
    have hv : isStatsCacheValid now st = false := by
      simp [isStatsCacheValid, hc]
    have hpath : refreshStatsPath (.error ()) now st = (emptyMarketingStats now, st, true) := by
      simp [refreshStatsPath, hc]
    cases force <;> simp [fetchMarketingStats, hv, hpath]

/-- Witness for C3: concrete first-failure fallbacks with empty caches, and a
cache hit on the defaults one millisecond later for glossary and brand. -/
theorem fallback_on_first_failure_witness :
    fetchGlossary none 7 true ⟨none, none⟩ =
      (fallbackGlossary 7, ⟨some (fallbackGlossary 7), some 7⟩, true) ∧
    fetchGlossary none 8 false ⟨some (fallbackGlossary 7), some 7⟩ =
      (fallbackGlossary 7, ⟨some (fallbackGlossary 7), some 7⟩, false) ∧
    fetchBrandBible (some (.error ())) 7 false ⟨none, none⟩ =
      (createDefaultBrandBible 7, ⟨some (createDefaultBrandBible 7), some 7⟩, true) ∧
    fetchMarketingStats (.error ()) 7 false ⟨none, none⟩ =
      (emptyMarketingStats 7, ⟨none, none⟩, true) :=
  ⟨((fallback_on_first_failure 7 8).1 none true ⟨none, none⟩ (Or.inl rfl) rfl).1,
   ((fallback_on_first_failure 7 8).1 none true ⟨none, none⟩ (Or.inl rfl) rfl).2 (by decide) none,
   ((fallback_on_first_failure 7 8).2.1 (some (.error ())) false ⟨none, none⟩ (Or.inr rfl) rfl).1,
   (fallback_on_first_failure 7 8).2.2 false ⟨none, none⟩ rfl⟩

/-- C7: in a stats refresh the five fields are computed in isolation, each
from its own endpoint outcome only: the built snapshot's fields equal the
per-endpoint helper applied to that endpoint's outcome alone, and a failed
endpoint yields that field's empty/zero default while the others are mapped
from their own responses; in particular a failed partner endpoint gives
`partnerCount = 0` with every other field populated from its own response. -/
theorem stats_fields_isolated (r : StatsResponses) (now : Nat) (st : StatsCacheState) :
    ((fetchMarketingStats (.ok r) now true st).1.networks = fetchNetworks r.chains ∧
     (fetchMarketingStats (.ok r) now true st).1.networkCount = (fetchNetworks r.chains).length ∧
     (fetchMarketingStats (.ok r) now true st).1.partners = fetchPartners r.partners ∧
     (fetchMarketingStats (.ok r) now true st).1.partnerCount = (fetchPartners r.partners).length ∧
     (fetchMarketingStats (.ok r) now true st).1.tokenSupply = fetchTokenSupply r.supply ∧
     (fetchMarketingStats (.ok r) now true st).1.moneyMarketAssets =
       fetchMoneyMarketAssets r.moneyMarketAssets ∧
     (fetchMarketingStats (.ok r) now true st).1.recentIntentsCount =
       fetchRecentIntentsCount r.orderbookTotal) ∧
    (r.chains = none → (fetchMarketingStats (.ok r) now true st).1.networkCount = 0) ∧
    (r.partners = none →
      (fetchMarketingStats (.ok r) now true st).1.partnerCount = 0 ∧
      (fetchMarketingStats (.ok r) now true st).1.partners = []) ∧
    (r.supply = none →
      (fetchMarketingStats (.ok r) now true st).1.tokenSupply =
        { totalSupply := "0".data, circulatingSupply := "0".data, lockedSupply := "0".data }) ∧
    (r.moneyMarketAssets = none →
      (fetchMarketingStats (.ok r) now true st).1.moneyMarketAssets = []) ∧
    (r.orderbookTotal = none →
      (fetchMarketingStats (.ok r) now true st).1.recentIntentsCount = 0) := by
  refine ⟨⟨rfl, rfl, rfl, rfl, rfl, rfl, rfl⟩, ?_, ?_, ?_, ?_, ?_⟩
  · intro h; simp [fetchMarketingStats, refreshStatsPath, fetchNetworks, h]
  · intro h; simp [fetchMarketingStats, refreshStatsPath, fetchPartners, h]
  · intro h; simp [fetchMarketingStats, refreshStatsPath, fetchTokenSupply, h]
  · intro h; simp [fetchMarketingStats, refreshStatsPath, fetchMoneyMarketAssets, h]
  · intro h; simp [fetchMarketingStats, refreshStatsPath, fetchRecentIntentsCount, h]

/-- Witness for C7, the spec's end-to-end scenario: only the partner endpoint
fails; `partnerCount = 0` while networks, supply, money-market and orderbook
fields are populated from their own successful responses. -/
theorem stats_fields_isolated_witness :
    ((fetchMarketingStats
        (.ok { chains := some ["sonic".data],
               partners := none,
               supply := some { totalSupply := "9".data, circulatingSupply := "4".data,
                                lockedSupply := "5".data },
               moneyMarketAssets := some [],
               orderbookTotal := some 3 })
        11 true ⟨none, none⟩).1.partnerCount = 0 ∧
     (fetchMarketingStats
        (.ok { chains := some ["sonic".data],
               partners := none,
               supply := some { totalSupply := "9".data, circulatingSupply := "4".data,
                                lockedSupply := "5".data },
               moneyMarketAssets := some [],
               orderbookTotal := some 3 })
        11 true ⟨none, none⟩).1.networks = [⟨"sonic".data, "Sonic".data⟩]) ∧
    (fetchMarketingStats
        (.ok { chains := some ["sonic".data],
               partners := none,
               supply := some { totalSupply := "9".data, circulatingSupply := "4".data,
                                lockedSupply := "5".data },
               moneyMarketAssets := some [],
               orderbookTotal := some 3 })
        11 true ⟨none, none⟩).1.recentIntentsCount = 3 :=
  ⟨⟨((stats_fields_isolated _ 11 ⟨none, none⟩).2.2.1 rfl).1, by decide⟩,
   (stats_fields_isolated
      { chains := some ["sonic".data],
        partners := none,
        supply := some { totalSupply := "9".data, circulatingSupply := "4".data,
                         lockedSupply := "5".data },
        moneyMarketAssets := some [],
        orderbookTotal := some 3 } 11 ⟨none, none⟩).1.2.2.2.2.2.2⟩

/-- C9 counterexample: the claim fails on an expired snapshot.  A plain
`getTerm` lookup issued after the TTL has elapsed triggers a refresh that
overwrites the stored snapshot and timestamp. -/
theorem lookup_mutates_expired_cache :
    (getTerm (some (.ok ([], []))) 300000 "amm".data
        ⟨some (fallbackGlossary 0), some 0⟩).2 ≠
      (⟨some (fallbackGlossary 0), some 0⟩ : GlossaryCacheState) := by
  intro h
  have : (300000 : Nat) = 0 := congrArg
    (fun st => (st.lastGlossaryFetchTime.getD 9).succ.pred) h
  exact absurd this (by decide)

/-- C9 (amended): lookup, list, search and translate leave the stored
snapshot and timestamp unchanged whenever the cached snapshot is valid
(`now - fetchedAt < TTL`); a query observing an expired or absent snapshot
itself refreshes the cache as a side effect, and the explicit refresh always
attempts a fetch regardless of validity. -/
theorem queries_frame_valid_cache (env : GlossaryUpstream) (now : Nat)
    (st : GlossaryCacheState) (g : GlossaryData) (t : Nat)
    (h1 : st.cachedGlossary = some g) (h2 : st.lastGlossaryFetchTime = some t)
    (h3 : now - t < GLOSSARY_CACHE_DURATION_MS) :
    (∀ q, (getTerm env now q st).2 = st) ∧
    (∀ cat, (getAllTerms env now cat st).2 = st) ∧
    (∀ q cat, (searchGlossaryOp env now q cat st).2 = st) ∧
    (∀ q, (translateTerm env now q st).2 = st) ∧
    (∀ env2 : GlossaryUpstream, (fetchGlossary env2 now true st).2.2 = true) := by
  have hfetch : fetchGlossary env now false st = (g, st, false) :=
    (cache_ttl_strict now).1 env st g t h1 h2 h3
  refine ⟨fun q => ?_, fun cat => ?_, fun q cat => ?_, fun q => ?_, fun env2 => ?_⟩
  · simp [getTerm, hfetch]
  · simp [getAllTerms, hfetch]
  · simp [searchGlossaryOp, hfetch]
  · unfold translateTerm
    rw [hfetch]
    cases hf : findGlossaryTerm g q <;> simp [hf, hfetch]
  · have hv : isGlossaryCacheValid now st = true := by
      simp [isGlossaryCacheValid, h1, h2, h3]
    simp [fetchGlossary, hv, refreshGlossaryPath_attempted]

/-- Witness for C9 (amended): with a one-millisecond-old snapshot, each query
operation leaves the cache state exactly as it was. -/
theorem queries_frame_valid_cache_witness :
    (getTerm none 1 "solver".data ⟨some (fallbackGlossary 0), some 0⟩).2 =
      (⟨some (fallbackGlossary 0), some 0⟩ : GlossaryCacheState) ∧
    (translateTerm none 1 "solver".data ⟨some (fallbackGlossary 0), some 0⟩).2 =
      (⟨some (fallbackGlossary 0), some 0⟩ : GlossaryCacheState) :=
  ⟨(queries_frame_valid_cache none 1 _ _ 0 rfl rfl (by decide)).1 _,
   (queries_frame_valid_cache none 1 _ _ 0 rfl rfl (by decide)).2.2.2.1 _⟩

set_option maxRecDepth 10000 in
/-- C8: evaluation of the code at the failing input.  Brand free-text search
builds `new RegExp(word, "gi")` from each raw query word, so the query `"("`
— an unterminated group, which the ECMAScript RegExp constructor genuinely
rejects with a SyntaxError — makes the scoring throw, and no caller catches
it: the search on the default Brand Bible raises instead of returning a
value, contradicting the no-raise claim.  The glossary search, which uses
only substring tests, does return normally on the same query. -/
theorem brand_search_raises_on_invalid_regex :
    searchBrandBible (createDefaultBrandBible 0) "(".data 5 =
      .error RegexFailure.syntaxError ∧
    searchGlossary (fallbackGlossary 0) none "(".data = [] := by
  refine ⟨rfl, ?_⟩
  decide

/-- Helper: full characterization of `List.find?` hits: the found element
satisfies the predicate and everything before it fails it. -/
theorem find?_eq_some_split {α : Type} (p : α → Bool) :
    ∀ (l : List α) (a : α), l.find? p = some a →
      p a = true ∧ ∃ l₁ l₂, l = l₁ ++ a :: l₂ ∧ ∀ x ∈ l₁, p x = false := by
  intro l
  induction l with
  | nil => intro a h; simp at h
  | cons b bs ih =>
    intro a h
    by_cases hb : p b = true
    · rw [List.find?_cons_of_pos _ hb] at h
      injection h with h
      subst h
      exact ⟨hb, [], bs, rfl, by simp⟩
    · rw [List.find?_cons_of_neg _ hb] at h
      obtain ⟨hpa, l₁, l₂, heq, hall⟩ := ih a h
      refine ⟨hpa, b :: l₁, l₂, by rw [heq]; rfl, ?_⟩
      intro x hx
      rcases List.mem_cons.mp hx with h | hx
      · subst h; simpa using hb
      · exact hall x hx

/-- C10: `getTerm`'s lookup returns `none` — it is a total function, never an
exception — exactly when no term's lowercased title equals or contains the
lowercased query; on a hit it returns the first term in snapshot order whose
lowercased title equals or contains the query, so an earlier term whose title
merely contains the query wins over a later exact match (final conjunct:
query "AMM" against titles ["Gamma", "AMM"] returns "Gamma", whose title
contains "amm"); and `translateTerm` returns `none` exactly when `getTerm`
does. -/
theorem getTerm_characterization (g : GlossaryData) (q : Str) :
    (findGlossaryTerm g q = none ↔
      ∀ t ∈ g.terms,
        ¬(lowerStr t.title = lowerStr q ∨
          strIncludes (lowerStr t.title) (lowerStr q) = true)) ∧
    (∀ term, findGlossaryTerm g q = some term →
      (lowerStr term.title = lowerStr q ∨
        strIncludes (lowerStr term.title) (lowerStr q) = true) ∧
      ∃ l₁ l₂, g.terms = l₁ ++ term :: l₂ ∧
        ∀ u ∈ l₁,
          ¬(lowerStr u.title = lowerStr q ∨
            strIncludes (lowerStr u.title) (lowerStr q) = true)) ∧
    (∀ (env : GlossaryUpstream) (now : Nat) (st : GlossaryCacheState),
      (translateTerm env now q st).1 = none ↔ (getTerm env now q st).1 = none) ∧
    findGlossaryTerm
        ⟨"G".data, 0,
          [⟨"Gamma".data, "x".data, [], .systemConcept, none⟩,
           ⟨"AMM".data, "y".data, [], .systemComponent, none⟩]⟩ "AMM".data =
      some ⟨"Gamma".data, "x".data, [], .systemConcept, none⟩ := by
  refine ⟨?_, ?_, ?_, by decide⟩
  · unfold findGlossaryTerm
    rw [List.find?_eq_none]
    constructor
    · intro h t ht hcond
      refine h t ht ?_
      rcases hcond with hc | hc
      · simp [hc]
      · simp [hc]
    · intro h t ht hcond
      refine h t ht ?_
      rcases Bool.or_eq_true_iff.mp hcond with hc | hc
      · exact Or.inl (by simpa using hc)
      · exact Or.inr hc
  · intro term h
    obtain ⟨hp, l₁, l₂, heq, hall⟩ := find?_eq_some_split _ _ _ h
    refine ⟨?_, l₁, l₂, heq, ?_⟩
    · rcases Bool.or_eq_true_iff.mp hp with hc | hc
      · exact Or.inl (by simpa using hc)
      · exact Or.inr hc
    · intro u hu hcond
      have := hall u hu
      rcases hcond with hc | hc
      · simp [hc] at this
      · simp [hc] at this
  · intro env now st
    unfold translateTerm getTerm
    cases hf : findGlossaryTerm (fetchGlossary env now false st).1 q <;> simp [hf]

/-- Witness for C10: applying the characterization at an empty glossary
(lookup misses, returning `null`) and at the two-term glossary where the
containing title is returned ahead of the later exact match. -/
theorem getTerm_characterization_witness :
    findGlossaryTerm ⟨"E".data, 0, []⟩ "amm".data = none ∧
    (lowerStr "Gamma".data = lowerStr "AMM".data ∨
      strIncludes (lowerStr "Gamma".data) (lowerStr "AMM".data) = true) :=
  ⟨(getTerm_characterization ⟨"E".data, 0, []⟩ "amm".data).1.mpr (by simp),
   ((getTerm_characterization
      ⟨"G".data, 0,
        [⟨"Gamma".data, "x".data, [], .systemConcept, none⟩,
         ⟨"AMM".data, "y".data, [], .systemComponent, none⟩]⟩ "AMM".data).2.1
      ⟨"Gamma".data, "x".data, [], .systemConcept, none⟩ (by decide)).1⟩

/-- The per-entry brand search score as the claim states it: 10 for each query
word contained in the lowercased title, 2 for each word contained in the
lowercased body, plus one flat +5 bonus — added at most once — when the full
query phrase (words joined by a single space) is a case-insensitive substring
of the combined title+body text. -/
def claimedBrandScore (title body : Str) (queryWords : List Str) : Nat :=
  (queryWords.map (fun w =>
    (if strIncludes (lowerStr title) w then 10 else 0) +
    (if strIncludes (lowerStr body) w then 2 else 0))).sum +
  (if strIncludes (lowerStr (title ++ ' ' :: body)) (joinSpace queryWords) then 5 else 0)

/-- The brand search score the code actually computes, in closed form: the sum
over query words of the number of occurrences of the word in the lowercased
text, plus 5 for EACH word that occurs at least once while the full query
phrase is a substring of the text — a per-matching-word bonus, not a flat
one. -/
def amendedBrandScore (text : Str) (queryWords : List Str) : Nat :=
  let textLower := lowerStr text
  let phrase := joinSpace queryWords
  (queryWords.map (fun w =>
    let m := countOccs (lowerStr w) textLower
    m + (if 0 < m && strIncludes textLower phrase then 5 else 0))).sum

/-- C5 counterexample: with a single section titled "alpha beta" (empty body)
and the query "alpha beta", the code scores it 12 = 1 + 5 + 1 + 5 (one
occurrence of each word, and the phrase bonus granted once PER matching word),
whereas the claimed formula yields 25 = 10 + 10 + 5; in particular the bonus
is not flat and the weights are not 10/2 per containing field. -/
theorem brand_score_claim_false :
    searchBrandBible ⟨"B".data, 0, [⟨"1".data, "alpha beta".data, [], []⟩]⟩
        "alpha beta".data 5 =
      .ok [⟨"1".data, "alpha beta".data, none, none, [], 12⟩] ∧
    claimedBrandScore "alpha beta".data [] ["alpha".data, "beta".data] = 25 ∧
    (12 : Nat) ≠ 25 := by
  refine ⟨rfl, ?_, by decide⟩
  decide

/-- Helper: closed form of `calcScoreGo` on regex-literal words. -/
theorem calcScoreGo_closed (textLower phrase : Str) :
    ∀ (ws : List Str) (acc : Nat), (∀ w ∈ ws, jsRegexLiteral w = true) →
      calcScoreGo textLower phrase ws acc =
        .ok (acc + (ws.map (fun w =>
          let m := countOccs (lowerStr w) textLower
          m + (if 0 < m && strIncludes textLower phrase then 5 else 0))).sum) := by
  intro ws
  induction ws with
  | nil => intro acc _; simp [calcScoreGo]
  | cons w ws ih =>
    intro acc h
    have hw : jsRegexLiteral w = true := h w (by simp)
    have hws : ∀ w ∈ ws, jsRegexLiteral w = true := fun x hx => h x (by simp [hx])
    unfold calcScoreGo
    rw [hw]
    simp only [if_true]
    by_cases hm : 0 < countOccs (lowerStr w) textLower
    · by_cases hph : strIncludes textLower phrase = true
      · simp [hm, hph, ih _ hws]
        omega
      · have hph' : strIncludes textLower phrase = false := by
          simpa using hph
        simp [hm, hph', ih _ hws]
        omega
    · have hm0 : countOccs (lowerStr w) textLower = 0 := by omega
      simp [hm, hm0, ih _ hws]

/-- C5 (amended): brand free-text relevance scoring, for any query whose
words are regex-literal (no metacharacters), returns the sum over query words
of that word's occurrence count in the lowercased combined title+body text,
plus a +5 bonus granted once per query word that occurs at least once when
the full query phrase is a substring of that text: the occurrence counts are
unweighted (no 10/2 title/body weighting) and the bonus is per matching word,
not flat. -/
theorem brand_score_amended (text : Str) (queryWords : List Str)
    (h : ∀ w ∈ queryWords, jsRegexLiteral w = true) :
    calculateRelevanceScore text queryWords = .ok (amendedBrandScore text queryWords) := by
  unfold calculateRelevanceScore amendedBrandScore
  rw [calcScoreGo_closed _ _ _ _ h]
  simp

/-- Witness for C5 (amended): the closed form evaluated on the
counterexample's section text and query. -/
theorem brand_score_amended_witness :
    calculateRelevanceScore "alpha beta ".data ["alpha".data, "beta".data] =
      .ok (amendedBrandScore "alpha beta ".data ["alpha".data, "beta".data]) ∧
    amendedBrandScore "alpha beta ".data ["alpha".data, "beta".data] = 12 :=
  ⟨brand_score_amended _ _ (by decide), by decide⟩

-- ---------------------------------------------------------------------------
-- C6: brand normalizer structure
-- ---------------------------------------------------------------------------

/-- A block that starts a new section: a level-1 heading whose trimmed text is
non-empty. -/
def isRealH1 (b : NotionBlock) : Bool :=
  match b with
  | .heading1 t => !(trimStr t).isEmpty
  | _ => false

/-- The trimmed titles of the section-starting level-1 headings, in order. -/
def realH1Titles (blocks : List NotionBlock) : List Str :=
  blocks.filterMap (fun b =>
    match b with
    | .heading1 t => if trimStr t = [] then none else some (trimStr t)
    | _ => none)

/-- Section titles already emitted by a parser state, the open section's last. -/
def finishTitles (st : BrandParseState) : List Str :=
  st.done.map (fun s => s.title) ++
    (match st.currentSection with
     | some s => [s.title]
     | none => [])

/-- Closing the open subsection touches neither `done` nor the open section's
title. -/
theorem finishTitles_closeSubsection (st : BrandParseState) :
    finishTitles (closeSubsection st) = finishTitles st := by
  unfold finishTitles closeSubsection
  cases st.currentSection <;> cases st.currentSubsection <;> rfl

/-- Closing the open section turns the pending titles into the emitted list. -/
theorem closeSection_titles (st : BrandParseState) :
    (closeSection st).done.map (fun s => s.title) = finishTitles st := by
  unfold closeSection
  rw [← finishTitles_closeSubsection st]
  generalize closeSubsection st = st'
  unfold finishTitles
  cases h : st'.currentSection <;> simp [h]

/-- One parser step appends the new section title exactly on a non-empty
level-1 heading and otherwise preserves the emitted titles. -/
theorem brandParseStep_titles (st : BrandParseState) (b : NotionBlock) :
    finishTitles (brandParseStep st b) =
      finishTitles st ++
        (if isRealH1 b then [trimStr (getBlockText b)] else []) := by
  unfold brandParseStep
  by_cases ht : trimStr (getBlockText b) = []
  · have hr : isRealH1 b = false := by
      cases b <;> simp_all [isRealH1, getBlockText, List.isEmpty_iff]
    simp [ht, hr]
  · rw [if_neg ht]
    cases b with
    | heading1 t =>
      have hr : isRealH1 (NotionBlock.heading1 t) = true := by
        simp_all [isRealH1, getBlockText, List.isEmpty_iff]
      rw [hr, if_pos rfl]
      rw [← closeSection_titles st]
      unfold finishTitles
      simp [getBlockText]
    | heading2 t =>
      have hr : isRealH1 (NotionBlock.heading2 t) = false := rfl
      rw [hr]
      cases hc : st.currentSection with
      | none =>
        unfold brandContentStep finishTitles
        cases hs : st.currentSubsection <;> simp [hc, hs]
      | some sec =>
        have h2 : (closeSubsection st).currentSection.map (fun s => s.title) =
            st.currentSection.map (fun s => s.title) := by
          unfold closeSubsection
          cases st.currentSection <;> cases st.currentSubsection <;> rfl
        have h3 : (closeSubsection st).done = st.done := by
          unfold closeSubsection
          cases st.currentSection <;> cases st.currentSubsection <;> rfl
        cases hcc : (closeSubsection st).currentSection with
        | none => simp_all
        | some sec' =>
          unfold finishTitles
          simp only [hcc]
          have : sec'.title = sec.title := by
            rw [hcc, hc] at h2
            simpa using h2
          simp [hc, h3, this]
    | heading3 t =>
      have hr : isRealH1 (NotionBlock.heading3 t) = false := rfl
      rw [hr]
      cases hs : st.currentSubsection with
      | none =>
        unfold brandContentStep finishTitles
        cases hc : st.currentSection <;> simp [hc, hs]
      | some sub =>
        unfold finishTitles
        cases hc : st.currentSection <;> simp [hc, hs]
    | paragraph t =>
      unfold brandContentStep finishTitles
      cases hc : st.currentSection <;> cases hs : st.currentSubsection <;> simp [hc, hs, isRealH1]
    | bulletedListItem t =>
      unfold brandContentStep finishTitles
      cases hc : st.currentSection <;> cases hs : st.currentSubsection <;> simp [hc, hs, isRealH1]
    | numberedListItem t =>
      unfold brandContentStep finishTitles
      cases hc : st.currentSection <;> cases hs : st.currentSubsection <;> simp [hc, hs, isRealH1]
    | toggle t =>
      unfold brandContentStep finishTitles
      cases hc : st.currentSection <;> cases hs : st.currentSubsection <;> simp [hc, hs, isRealH1]
    | quoteBlock t =>
      unfold brandContentStep finishTitles
      cases hc : st.currentSection <;> cases hs : st.currentSubsection <;> simp [hc, hs, isRealH1]
    | callout t =>
      unfold brandContentStep finishTitles
      cases hc : st.currentSection <;> cases hs : st.currentSubsection <;> simp [hc, hs, isRealH1]
    | codeBlock t =>
      unfold brandContentStep finishTitles
      cases hc : st.currentSection <;> cases hs : st.currentSubsection <;> simp [hc, hs, isRealH1]
    | toDo c t =>
      unfold brandContentStep finishTitles
      cases hc : st.currentSection <;> cases hs : st.currentSubsection <;> simp [hc, hs, isRealH1]
    | divider =>
      unfold brandContentStep finishTitles
      cases hc : st.currentSection <;> cases hs : st.currentSubsection <;> simp [hc, hs, isRealH1]
    | unsupported =>
      simp [getBlockText, trimStr] at ht

/-- Folding the parser over a block list appends exactly the non-empty
level-1 heading titles. -/
theorem foldl_brandParseStep_titles (blocks : List NotionBlock) :
    ∀ st, finishTitles (blocks.foldl brandParseStep st) =
      finishTitles st ++ realH1Titles blocks := by
  induction blocks with
  | nil => intro st; simp [realH1Titles]
  | cons b bs ih =>
    intro st
    rw [List.foldl_cons, ih, brandParseStep_titles]
    unfold realH1Titles
    rw [List.filterMap_cons]
    cases b <;> simp [isRealH1, List.isEmpty_iff, realH1Titles, getBlockText] <;>
      split <;> simp_all [getBlockText]

/-- Before the first section exists, every block other than a non-empty
level-1 heading leaves the parser in its initial state. -/
theorem brandParseStep_init_of_not_h1 (b : NotionBlock) (h : isRealH1 b = false) :
    brandParseStep initBrandParseState b = initBrandParseState := by
  unfold brandParseStep
  by_cases ht : trimStr (getBlockText b) = []
  · simp [ht]
  · rw [if_neg ht]
    cases b <;>
      simp_all [isRealH1, getBlockText, List.isEmpty_iff, brandContentStep,
        initBrandParseState]

/-- Blocks before the first non-empty level-1 heading are dropped: parsing is
unchanged by removing them. -/
theorem parse_drops_leading_blocks (now : Nat) :
    ∀ blocks : List NotionBlock,
      parseBlocksIntoBrandBible now blocks =
        parseBlocksIntoBrandBible now (blocks.dropWhile (fun b => !(isRealH1 b))) := by
  intro blocks
  induction blocks with
  | nil => rfl
  | cons b bs ih =>
    by_cases hb : isRealH1 b = true
    · rw [List.dropWhile_cons_of_neg (by simp [hb])]
    · rw [List.dropWhile_cons_of_pos (by simp [hb])]
      rw [← ih]
      unfold parseBlocksIntoBrandBible
      rw [List.foldl_cons, brandParseStep_init_of_not_h1 b (by simpa using hb)]

/-- Blocks whose extracted text trims to empty are skipped entirely. -/
theorem parse_skips_empty_blocks (now : Nat) (bs1 bs2 : List NotionBlock)
    (b : NotionBlock) (h : trimStr (getBlockText b) = []) :
    parseBlocksIntoBrandBible now (bs1 ++ b :: bs2) =
      parseBlocksIntoBrandBible now (bs1 ++ bs2) := by
  unfold parseBlocksIntoBrandBible
  rw [List.foldl_append, List.foldl_append, List.foldl_cons]
  have : brandParseStep (bs1.foldl brandParseStep initBrandParseState) b =
      bs1.foldl brandParseStep initBrandParseState := by
    unfold brandParseStep
    simp [h]
  rw [this]

/-- C6: the brand normalizer (i) on the spec's end-to-end scenario produces
exactly one section (id "1", title "Intro") holding exactly one subsection
(id "1.1", title "Colors", body "Use red."); (ii) on a scenario exercising
the remaining rules, drops the block before the first level-1 heading,
appends a paragraph to the open section's body, renders a level-3 heading as
emphasized inline content of the open subsection, skips the empty paragraph
and appends the bulleted item to the open subsection's body; (iii) in
general, emits one section per non-empty level-1 heading, in order, titled
with its trimmed text; (iv) ignores all blocks before the first non-empty
level-1 heading; and (v) skips every block whose text trims to empty. -/
theorem brand_normalizer_spec (now : Nat) :
    parseBlocksIntoBrandBible now
        [.heading1 "Intro".data, .heading2 "Colors".data, .paragraph "Use red.".data] =
      ⟨"SODAX Brand Bible".data, now,
        [⟨"1".data, "Intro".data, [],
          [⟨"1.1".data, "1".data, "Colors".data, "Use red.".data⟩]⟩]⟩ ∧
    parseBlocksIntoBrandBible now
        [.paragraph "dropped".data, .heading1 "A".data, .paragraph "body".data,
         .heading2 "B".data, .heading3 "C".data, .paragraph "".data,
         .bulletedListItem "item".data] =
      ⟨"SODAX Brand Bible".data, now,
        [⟨"1".data, "A".data, "body".data,
          [⟨"1.1".data, "1".data, "B".data,
            ("**C**\n\n• item" : String).data⟩]⟩]⟩ ∧
    (∀ blocks : List NotionBlock,
      (parseBlocksIntoBrandBible now blocks).sections.map (fun s => s.title) =
        realH1Titles blocks) ∧
    (∀ blocks : List NotionBlock,
      parseBlocksIntoBrandBible now blocks =
        parseBlocksIntoBrandBible now (blocks.dropWhile (fun b => !(isRealH1 b)))) ∧
    (∀ (bs1 bs2 : List NotionBlock) (b : NotionBlock),
      trimStr (getBlockText b) = [] →
      parseBlocksIntoBrandBible now (bs1 ++ b :: bs2) =
        parseBlocksIntoBrandBible now (bs1 ++ bs2)) := by
  refine ⟨rfl, rfl, ?_, parse_drops_leading_blocks now, parse_skips_empty_blocks now⟩
  intro blocks
  show (closeSection (blocks.foldl brandParseStep initBrandParseState)).done.map _ = _
  rw [closeSection_titles, foldl_brandParseStep_titles]
  rfl

/-- Witness for C6: the empty-block skip rule applied to the concrete
scenario, an empty paragraph between heading and body. -/
theorem brand_normalizer_spec_witness :
    parseBlocksIntoBrandBible 3
        [.heading1 "Intro".data, .paragraph "   ".data, .paragraph "x".data] =
      parseBlocksIntoBrandBible 3 [.heading1 "Intro".data, .paragraph "x".data] :=
  (brand_normalizer_spec 3).2.2.2.2 [.heading1 "Intro".data] [.paragraph "x".data]
    (.paragraph "   ".data) (by decide)

-- ---------------------------------------------------------------------------
-- C4: glossary search returns exactly the positive-score terms in stable
-- descending-score order
-- ---------------------------------------------------------------------------

/-- Insert a score into a descending, duplicate-free score list. -/
def insertScore (s : Nat) : List Nat → List Nat
  | [] => [s]
  | t :: ts =>
    if s = t then t :: ts
    else if t < s then s :: t :: ts
    else t :: insertScore s ts

/-- The distinct scores occurring in a scored list, in descending order. -/
def descScores {α : Type} (l : List (α × Nat)) : List Nat :=
  l.foldr (fun x r => insertScore x.2 r) []

/-- Statement of the claim's ordering in executable form: the positive-score
candidates in snapshot order, grouped by score, groups enumerated in
descending score order — i.e. descending score with ties in snapshot order,
and no result-count limit. -/
def specSearchGlossary (g : GlossaryData) (category : Option GlossaryCategory)
    (query : Str) : List GlossaryTerm :=
  let queryLower := lowerStr query
  let words := splitWhitespace queryLower
  let pos := (g.terms.filter (categoryOk category)).filter
    (fun t => 0 < glossaryTermScore queryLower words t)
  (descScores (pos.map (fun t => (t, glossaryTermScore queryLower words t)))).flatMap
    (fun s => pos.filter (fun t => glossaryTermScore queryLower words t == s))

theorem mem_insertScore (s : Nat) :
    ∀ (l : List Nat) (a : Nat), a ∈ insertScore s l ↔ a = s ∨ a ∈ l := by
  intro l
  induction l with
  | nil => intro a; simp [insertScore]
  | cons t ts ih =>
    intro a
    unfold insertScore
    by_cases h1 : s = t
    · subst h1
      simp only [if_pos rfl]
      constructor
      · intro h; exact Or.inr h
      · rintro (h | h)
        · simp [h]
        · exact h
    · rw [if_neg h1]
      by_cases h2 : t < s
      · rw [if_pos h2]
        simp [List.mem_cons]
      · rw [if_neg h2]
        simp only [List.mem_cons, ih]
        tauto

theorem pairwise_insertScore (s : Nat) :
    ∀ l : List Nat, l.Pairwise (· > ·) → (insertScore s l).Pairwise (· > ·) := by
  intro l
  induction l with
  | nil => intro _; simp [insertScore]
  | cons t ts ih =>
    intro hp
    rw [List.pairwise_cons] at hp
    obtain ⟨hhead, htail⟩ := hp
    unfold insertScore
    by_cases h1 : s = t
    · subst h1
      rw [if_pos rfl]
      exact List.pairwise_cons.mpr ⟨hhead, htail⟩
    · rw [if_neg h1]
      by_cases h2 : t < s
      · rw [if_pos h2]
        refine List.pairwise_cons.mpr ⟨?_, List.pairwise_cons.mpr ⟨hhead, htail⟩⟩
        intro x hx
        rcases List.mem_cons.mp hx with h | h
        · subst h; exact h2
        · exact Nat.lt_trans (hhead x h) h2
      · rw [if_neg h2]
        have h3 : s < t := by omega
        refine List.pairwise_cons.mpr ⟨?_, ih htail⟩
        intro x hx
        rcases (mem_insertScore s ts x).mp hx with h | h
        · subst h; exact h3
        · exact hhead x h

theorem mem_descScores {α : Type} :
    ∀ (l : List (α × Nat)) (s : Nat), s ∈ descScores l ↔ ∃ x ∈ l, x.2 = s := by
  intro l
  induction l with
  | nil => intro s; simp [descScores]
  | cons a l ih =>
    intro s
    show s ∈ insertScore a.2 (descScores l) ↔ _
    rw [mem_insertScore]
    constructor
    · rintro (h | h)
      · exact ⟨a, by simp, h.symm⟩
      · obtain ⟨x, hx, hxs⟩ := (ih s).mp h
        exact ⟨x, by simp [hx], hxs⟩
    · rintro ⟨x, hx, hxs⟩
      rcases List.mem_cons.mp hx with h | h
      · subst h; exact Or.inl hxs.symm
      · exact Or.inr ((ih s).mpr ⟨x, h, hxs⟩)

theorem pairwise_descScores {α : Type} (l : List (α × Nat)) :
    (descScores l).Pairwise (· > ·) := by
  induction l with
  | nil => simp [descScores]
  | cons a l ih => exact pairwise_insertScore _ _ ih

theorem insertScoredDesc_cons {α : Type} (x y : α × Nat) (ys : List (α × Nat)) :
    insertScoredDesc x (y :: ys) =
      if y.2 ≤ x.2 then x :: y :: ys else y :: insertScoredDesc x ys := rfl

theorem insertScoredDesc_append {α : Type} (x : α × Nat) :
    ∀ (m r : List (α × Nat)), (∀ y ∈ m, x.2 < y.2) →
      insertScoredDesc x (m ++ r) = m ++ insertScoredDesc x r := by
  intro m
  induction m with
  | nil => intro r _; rfl
  | cons y ys ih =>
    intro r h
    have hy : x.2 < y.2 := h y (by simp)
    rw [List.cons_append, insertScoredDesc_cons, if_neg (by omega),
      ih r (fun z hz => h z (by simp [hz])), List.cons_append]

theorem filter_erase_score {α : Type} (l : List (α × Nat)) (s s' : Nat) (h : s' ≠ s) :
    (l.filter (fun x => !(x.2 == s))).filter (fun x => x.2 == s') =
      l.filter (fun x => x.2 == s') := by
  rw [List.filter_filter]
  apply List.filter_congr
  intro x _
  by_cases hx : x.2 = s'
  · subst hx
    simp [h]
  · simp [hx]

theorem insertScore_cons (s t : Nat) (ts : List Nat) :
    insertScore s (t :: ts) =
      if s = t then t :: ts
      else if t < s then s :: t :: ts
      else t :: insertScore s ts := rfl

/-- Key step: inserting a scored element into the bucket concatenation of a
descending duplicate-free score list yields the bucket concatenation for the
extended list. -/
theorem insertScoredDesc_bucket {α : Type} (a : α × Nat) :
    ∀ (ss : List Nat) (l : List (α × Nat)),
      ss.Pairwise (· > ·) →
      (∀ s ∈ ss, l.filter (fun x => x.2 == s) ≠ []) →
      (∀ x ∈ l, x.2 ∈ ss) →
      insertScoredDesc a (ss.flatMap (fun s => l.filter (fun x => x.2 == s))) =
        (insertScore a.2 ss).flatMap (fun s => (a :: l).filter (fun x => x.2 == s)) := by
  intro ss
  induction ss with
  | nil =>
    intro l _ _ h3
    have hl : l = [] := by
      cases l with
      | nil => rfl
      | cons x xs => exact absurd (h3 x (by simp)) (by simp)
    subst hl
    show insertScoredDesc a [] = [a.2].flatMap (fun s => [a].filter (fun x => x.2 == s))
    simp [insertScoredDesc]
  | cons s ss' ih =>
    intro l hpw h2 h3
    rw [List.pairwise_cons] at hpw
    obtain ⟨hhead, htail⟩ := hpw
    rcases Nat.lt_trichotomy a.2 s with hlt | heq | hgt
    · -- a.2 < s: the head bucket passes through, recurse on the tail
      rw [insertScore_cons, if_neg (by omega), if_neg (by omega)]
      rw [List.flatMap_cons, List.flatMap_cons]
      have hpass : ∀ y ∈ l.filter (fun x => x.2 == s), a.2 < y.2 := by
        intro y hy
        have hy2 : y.2 = s := by simpa using (List.mem_filter.mp hy).2
        omega
      rw [insertScoredDesc_append a _ _ hpass]
      have hfa : (a :: l).filter (fun x => x.2 == s) = l.filter (fun x => x.2 == s) := by
        rw [List.filter_cons, if_neg (by simp; omega)]
      rw [hfa]
      congr 1
      have hconv1 : ss'.flatMap (fun s' => l.filter (fun x => x.2 == s')) =
          ss'.flatMap (fun s' => (l.filter (fun x => !(x.2 == s))).filter
            (fun x => x.2 == s')) := by
        refine (List.flatMap_congr ?_).symm
        intro s' hs'
        have hne : s' ≠ s := by have := hhead s' hs'; omega
        exact filter_erase_score l s s' hne
      have hconv2 : (insertScore a.2 ss').flatMap
            (fun s' => (a :: l).filter (fun x => x.2 == s')) =
          (insertScore a.2 ss').flatMap
            (fun s' => (a :: l.filter (fun x => !(x.2 == s))).filter
              (fun x => x.2 == s')) := by
        refine (List.flatMap_congr ?_).symm
        intro s' hs'
        have hs'ne : s' ≠ s := by
          rcases (mem_insertScore _ _ _).mp hs' with h | h
          · omega
          · have := hhead s' h; omega
        rw [List.filter_cons, List.filter_cons, filter_erase_score l s s' hs'ne]
      rw [hconv1, hconv2]
      refine ih (l.filter (fun x => !(x.2 == s))) htail ?_ ?_
      · intro s' hs'
        have hne : s' ≠ s := by have := hhead s' hs'; omega
        rw [filter_erase_score l s s' hne]
        exact h2 s' (by simp [hs'])
      · intro x hx
        obtain ⟨hxl, hxs⟩ := List.mem_filter.mp hx
        have hne : x.2 ≠ s := by simpa using hxs
        have := h3 x hxl
        rcases List.mem_cons.mp this with h | h
        · exact absurd h hne
        · exact h
    · -- a.2 = s: a lands at the front of its existing bucket
      rw [insertScore_cons, if_pos heq]
      rw [List.flatMap_cons, List.flatMap_cons]
      obtain ⟨y, ys, hy⟩ := List.exists_cons_of_ne_nil (h2 s (by simp))
      have hy2 : y.2 = s := by
        have hmem : y ∈ l.filter (fun x => x.2 == s) := by rw [hy]; simp
        simpa using (List.mem_filter.mp hmem).2
      have hfa : (a :: l).filter (fun x => x.2 == s) =
          a :: l.filter (fun x => x.2 == s) := by
        rw [List.filter_cons, if_pos (by simp [heq])]
      have hcong : ss'.flatMap (fun s' => (a :: l).filter (fun x => x.2 == s')) =
          ss'.flatMap (fun s' => l.filter (fun x => x.2 == s')) := by
        apply List.flatMap_congr
        intro s' hs'
        have hne : a.2 ≠ s' := by have := hhead s' hs'; omega
        rw [List.filter_cons, if_neg (by simp [hne])]
      rw [hfa, hcong, hy, List.cons_append, insertScoredDesc_cons, if_pos (by omega)]
      rfl
    · -- s < a.2: a becomes a fresh singleton bucket at the very front
      rw [insertScore_cons, if_neg (by omega), if_pos hgt]
      have hnotin : a.2 ∉ s :: ss' := by
        intro hmem
        rcases List.mem_cons.mp hmem with h | h
        · omega
        · have := hhead _ h; omega
      have hfl : l.filter (fun x => x.2 == a.2) = [] := by
        rw [List.filter_eq_nil_iff]
        intro x hx
        have hin := h3 x hx
        intro hbeq
        have hx2 : x.2 = a.2 := by simpa using hbeq
        exact hnotin (hx2 ▸ hin)
      have hfa : (a :: l).filter (fun x => x.2 == a.2) = [a] := by
        rw [List.filter_cons, if_pos (by simp), hfl]
      have hcong : (s :: ss').flatMap (fun s' => (a :: l).filter (fun x => x.2 == s')) =
          (s :: ss').flatMap (fun s' => l.filter (fun x => x.2 == s')) := by
        apply List.flatMap_congr
        intro s' hs'
        have hne : a.2 ≠ s' := fun he => hnotin (he ▸ hs')
        rw [List.filter_cons, if_neg (by simp [hne])]
      have hrhs : (a.2 :: s :: ss').flatMap (fun s' => (a :: l).filter (fun x => x.2 == s')) =
          a :: (s :: ss').flatMap (fun s' => l.filter (fun x => x.2 == s')) := by
        show (a :: l).filter (fun x => x.2 == a.2) ++
            (s :: ss').flatMap (fun s' => (a :: l).filter (fun x => x.2 == s')) = _
        rw [hfa, hcong]
        rfl
      rw [hrhs]
      cases hbind : (s :: ss').flatMap (fun s' => l.filter (fun x => x.2 == s')) with
      | nil =>
        exfalso
        have : l.filter (fun x => x.2 == s) = [] := by
          rw [List.flatMap_cons] at hbind
          exact (List.append_eq_nil.mp hbind).1
        exact h2 s (by simp) this
      | cons y ys =>
        have hymem : y ∈ (s :: ss').flatMap (fun s' => l.filter (fun x => x.2 == s')) := by
          rw [hbind]; simp
        obtain ⟨s', hs', hyf⟩ := List.mem_flatMap.mp hymem
        have hy2 : y.2 = s' := by simpa using (List.mem_filter.mp hyf).2
        have hs'le : s' ≤ s := by
          rcases List.mem_cons.mp hs' with h | h
          · omega
          · have := hhead s' h; omega
        rw [insertScoredDesc_cons, if_pos (by omega)]

/-- The stable descending insertion sort equals the descending bucket
concatenation: descending score order with ties in input order. -/
theorem stableSortDesc_eq_buckets {α : Type} (l : List (α × Nat)) :
    stableSortDesc l = (descScores l).flatMap (fun s => l.filter (fun x => x.2 == s)) := by
  induction l with
  | nil => rfl
  | cons a l ih =>
    show insertScoredDesc a (stableSortDesc l) = _
    rw [ih]
    exact insertScoredDesc_bucket a (descScores l) l (pairwise_descScores l)
      (fun s hs => by
        obtain ⟨x, hx, hxs⟩ := (mem_descScores l s).mp hs
        exact List.ne_nil_of_mem (List.mem_filter.mpr ⟨hx, by simp [hxs]⟩))
      (fun x hx => (mem_descScores l x.2).mpr ⟨x, hx, rfl⟩)

/-- Building the kept scored list by `filterMap` is filtering then pairing. -/
theorem filterMap_if_score {α : Type} (f : α → Nat) :
    ∀ l : List α,
      l.filterMap (fun t => if 0 < f t then some (t, f t) else none) =
        (l.filter (fun t => 0 < f t)).map (fun t => (t, f t)) := by
  intro l
  induction l with
  | nil => rfl
  | cons a l ih =>
    rw [List.filterMap_cons, List.filter_cons]
    by_cases h : 0 < f a
    · simp [h, ih]
    · simp [h, ih]

/-- Mapping the term out of a paired bucket recovers the term-level bucket. -/
theorem map_fst_filter_pair {α : Type} (f : α → Nat) (st : Nat) :
    ∀ l : List α,
      ((l.map (fun t => (t, f t))).filter (fun x => x.2 == st)).map Prod.fst =
        l.filter (fun t => f t == st) := by
  intro l
  induction l with
  | nil => rfl
  | cons a l ih =>
    rw [List.map_cons, List.filter_cons, List.filter_cons]
    by_cases h : f a = st
    · simp [h, ih]
    · simp [h, ih]

/-- C4: for every cached glossary, optional category filter and query string,
`searchGlossary` returns exactly the candidate terms with strictly positive
score (10 per query word contained in the lowercased title, 5 per word
contained in some lowercased tag, 2 per word contained in the lowercased
summary, +20 for an exact lowercased-title match of the whole query), with no
result-count limit, sorted by descending score with ties kept in snapshot
order — stated as equality with the bucket-form specification
`specSearchGlossary`. -/
theorem searchGlossary_eq_spec (g : GlossaryData)
    (category : Option GlossaryCategory) (query : Str) :
    searchGlossary g category query = specSearchGlossary g category query ∧
    ∀ t, t ∈ searchGlossary g category query ↔
      t ∈ g.terms.filter (categoryOk category) ∧
      0 < glossaryTermScore (lowerStr query) (splitWhitespace (lowerStr query)) t := by
  have heq : searchGlossary g category query = specSearchGlossary g category query := by
    unfold searchGlossary specSearchGlossary
    dsimp only
    rw [filterMap_if_score (glossaryTermScore (lowerStr query) (splitWhitespace (lowerStr query)))]
    rw [stableSortDesc_eq_buckets]
    rw [List.map_flatMap]
    apply List.flatMap_congr
    intro s _
    exact map_fst_filter_pair _ s _
  refine ⟨heq, fun t => ?_⟩
  rw [heq]
  unfold specSearchGlossary
  dsimp only
  rw [List.mem_flatMap]
  constructor
  · rintro ⟨s, hs, htf⟩
    obtain ⟨htp, hts⟩ := List.mem_filter.mp htf
    obtain ⟨htc, hpos⟩ := List.mem_filter.mp htp
    exact ⟨htc, by simpa using hpos⟩
  · rintro ⟨htc, hpos⟩
    have htp : t ∈ (g.terms.filter (categoryOk category)).filter
        (fun u => 0 < glossaryTermScore (lowerStr query) (splitWhitespace (lowerStr query)) u) :=
      List.mem_filter.mpr ⟨htc, by simpa using hpos⟩
    refine ⟨glossaryTermScore (lowerStr query) (splitWhitespace (lowerStr query)) t, ?_, ?_⟩
    · exact (mem_descScores _ _).mpr ⟨(t, _), List.mem_map_of_mem _ htp, rfl⟩
    · exact List.mem_filter.mpr ⟨htp, by simp⟩

set_option maxRecDepth 10000 in
/-- Witness for C4: the spec equality applied to the fallback glossary and
query "solver", and the evaluated ranking: the exact-title term first (score
10+5+2+20), then the tag+summary match (5+2), then the tag-only match (5). -/
theorem searchGlossary_eq_spec_witness :
    searchGlossary (fallbackGlossary 0) none "solver".data =
      specSearchGlossary (fallbackGlossary 0) none "solver".data ∧
    (searchGlossary (fallbackGlossary 0) none "solver".data).map (fun t => t.title) =
      ["Solver".data, "Coordinator".data, "Money Market".data] :=
  ⟨(searchGlossary_eq_spec (fallbackGlossary 0) none "solver".data).1, by decide⟩
